import Mathlib

/-!
# Slack webhook MCP server: `handleSendMessage` and `sendSlackMessage`

A shallow embedding of `main.go`.

* Go `string`s are Lean `String`s (text made of Unicode scalar values, which is
  what JSON decoding of a tool call produces).
* The process environment, `http.NewRequest` and `http.Client.Do` are the three
  places where the handler meets the outside; they are the fields of `World`.
  Every call of `client.Do` is recorded in the order it is made, so that
  "no HTTP call" and "one HTTP call" are statements about that record.
* A Go `error` is modelled by its message (`err.Error()`), `nil` by `none`.
-/

namespace SlackWebhook

/-! ## Tool call requests (`mcp.CallToolRequest`) -/

/-- A Go dynamic value (`any`) found in the arguments of a tool call. `float64`
carries the IEEE-754 binary64 bit pattern; `other` stands for the values no
accessor used by the handler converts (`nil`, slices, nested maps). -/
inductive Value where
  | bool (b : Bool)
  | str (s : String)
  | int (i : Int)
  | float64 (bits : Nat)
  | other
  deriving DecidableEq, Repr

/-- The request of a tool call: `Params.Arguments` is an `any`; `none` is every
value that is not a `map[string]any`, `some m` is the map as key/value pairs
(the first pair of a key is the entry of the map). -/
structure CallToolRequest where
  Arguments : Option (List (String × Value))
  deriving Repr

/-- `GetArguments`: the argument map, or the nil map when `Arguments` is not a map. -/
def CallToolRequest.GetArguments (r : CallToolRequest) : List (String × Value) :=
  match r.Arguments with
  | some m => m
  | none => []

/-- Go map indexing `val, ok := args[key]`. -/
def CallToolRequest.arg (r : CallToolRequest) (key : String) : Option Value :=
  r.GetArguments.lookup key

/-- `RequireString`: the string stored under `key`, or an error when the key is
absent or the value is not a string. -/
def CallToolRequest.RequireString (r : CallToolRequest) (key : String) : Except String String :=
  match r.arg key with
  | some (Value.str s) => Except.ok s
  | some _ => Except.error ("argument \"" ++ key ++ "\" is not a string")
  | none => Except.error ("required argument \"" ++ key ++ "\" not found")

/-- `GetString`: the string stored under `key`, or `defaultValue`. -/
def CallToolRequest.GetString (r : CallToolRequest) (key : String) (defaultValue : String) : String :=
  match r.arg key with
  | some (Value.str s) => s
  | _ => defaultValue

/-- `strconv.ParseBool`. -/
def ParseBool (s : String) : Option Bool :=
  if s = "1" ∨ s = "t" ∨ s = "T" ∨ s = "TRUE" ∨ s = "true" ∨ s = "True" then some true
  else if s = "0" ∨ s = "f" ∨ s = "F" ∨ s = "FALSE" ∨ s = "false" ∨ s = "False" then some false
  else none

/-- `GetBool`: a boolean is returned as it is, a string is read by
`strconv.ParseBool`, a number is compared with zero (for a `float64` both zeros
have all bits below the sign bit clear); anything else gives `defaultValue`. -/
def CallToolRequest.GetBool (r : CallToolRequest) (key : String) (defaultValue : Bool) : Bool :=
  match r.arg key with
  | some (Value.bool b) => b
  | some (Value.str s) =>
    match ParseBool s with
    | some b => b
    | none => defaultValue
  | some (Value.int i) => decide (i ≠ 0)
  | some (Value.float64 bits) => decide (bits % 2 ^ 63 ≠ 0)
  | _ => defaultValue

/-! ## Tool call results (`mcp.CallToolResult`) -/

/-- The `mcp.TextContent` of a result. -/
structure TextContent where
  type : String
  text : String
  deriving DecidableEq, Repr

/-- The `mcp.CallToolResult` of a tool call. -/
structure CallToolResult where
  Content : List TextContent
  IsError : Bool
  deriving DecidableEq, Repr

/-- `mcp.NewToolResultText`. -/
def NewToolResultText (text : String) : CallToolResult :=
  ⟨[⟨"text", text⟩], false⟩

/-- `mcp.NewToolResultError`. -/
def NewToolResultError (text : String) : CallToolResult :=
  ⟨[⟨"text", text⟩], true⟩

/-! ## The message and its JSON encoding (`encoding/json`) -/

/-- The Go struct `SlackMessage`. -/
structure SlackMessage where
  Text : String
  Channel : String
  Username : String
  IconEmoji : String
  IconURL : String
  Markdown : Bool
  deriving DecidableEq, Repr

/-- The value of a struct field as the encoder sees it. -/
inductive FieldValue where
  | string (s : String)
  | bool (b : Bool)
  deriving DecidableEq, Repr

/-- One field of a struct together with its `json:"name,omitempty"` tag. -/
structure Field where
  name : String
  omitEmpty : Bool
  value : FieldValue
  deriving DecidableEq, Repr

/-- The fields of `SlackMessage` in declaration order, with their tags. -/
def SlackMessage.fields (m : SlackMessage) : List Field :=
  [ ⟨"text", false, FieldValue.string m.Text⟩,
    ⟨"channel", true, FieldValue.string m.Channel⟩,
    ⟨"username", true, FieldValue.string m.Username⟩,
    ⟨"icon_emoji", true, FieldValue.string m.IconEmoji⟩,
    ⟨"icon_url", true, FieldValue.string m.IconURL⟩,
    ⟨"mrkdwn", true, FieldValue.bool m.Markdown⟩ ]

/-- The encoder's `isEmptyValue`: a string of length zero, the boolean `false`. -/
def isEmptyValue : FieldValue → Bool
  | FieldValue.string s => decide (s.data = [])
  | FieldValue.bool b => !b

/-- Lower-case hexadecimal digit. -/
def hexDigit (n : Nat) : Char :=
  if n < 10 then Char.ofNat (48 + n) else Char.ofNat (87 + n)

/-- How the encoder's `appendString` (called with `escapeHTML`, as `json.Marshal`
does) writes one character inside a string literal. -/
def escapeRune (c : Char) : List Char :=
  let n := c.toNat
  if n = 34 ∨ n = 92 then [Char.ofNat 92, c]
  else if n = 8 then "\\b".data
  else if n = 12 then "\\f".data
  else if n = 10 then "\\n".data
  else if n = 13 then "\\r".data
  else if n = 9 then "\\t".data
  else if n < 32 ∨ n = 60 ∨ n = 62 ∨ n = 38 then
    "\\u00".data ++ [hexDigit (n / 16), hexDigit (n % 16)]
  else if n = 8232 ∨ n = 8233 then "\\u202".data ++ [hexDigit (n % 16)]
  else [c]

/-- The characters of a string, each written by `escapeRune`. -/
def escapeRunes : List Char → List Char
  | [] => []
  | c :: cs => escapeRune c ++ escapeRunes cs

/-- The encoder's `appendString`: the JSON string literal of `s`. -/
def appendString (s : String) : String :=
  ⟨Char.ofNat 34 :: (escapeRunes s.data ++ [Char.ofNat 34])⟩

/-- The encoding of a field value. -/
def encodeValue : FieldValue → String
  | FieldValue.string s => appendString s
  | FieldValue.bool true => "true"
  | FieldValue.bool false => "false"

/-- The fields the struct encoder writes: those not dropped by `omitempty`. -/
def emitted (fs : List Field) : List Field :=
  fs.filter (fun f => !(f.omitEmpty && isEmptyValue f.value))

/-- One member of the object: `"name":value`. -/
def encodeMember (f : Field) : String :=
  "\"" ++ f.name ++ "\":" ++ encodeValue f.value

/-- The struct encoder: the members that are written, separated by commas,
between braces. -/
def encodeStruct (fs : List Field) : String :=
  "\x7b" ++ ",".intercalate ((emitted fs).map encodeMember) ++ "\x7d"

/-- `json.Marshal(message)`. A struct of strings and a boolean has no value the
encoder rejects, so the error result is never produced. -/
def Marshal (m : SlackMessage) : Except String String :=
  Except.ok (encodeStruct m.fields)

/-! ## The outside world -/

/-- The `*http.Request` handed to `client.Do`. -/
structure HttpRequest where
  Method : String
  URL : String
  Header : List (String × String)
  Body : String
  deriving DecidableEq, Repr

/-- The part of `*http.Response` the code reads: the status code and what
`io.ReadAll(resp.Body)` returns. -/
structure HttpResponse where
  StatusCode : Int
  Body : String
  deriving DecidableEq, Repr

/-- What the handler cannot decide by itself: the environment (`none` for a
variable that is not set), whether `http.NewRequest` accepts a URL (it fails,
with the given message, when `url.Parse` rejects it), and the outcome of
`client.Do` (an error message, or the response). -/
structure World where
  environ : String → Option String
  parseURL : String → Except String Unit
  roundTrip : HttpRequest → Except String HttpResponse

/-- `os.Getenv`: the value of the variable, empty when it is not set. -/
def World.Getenv (w : World) (key : String) : String :=
  match w.environ key with
  | some v => v
  | none => ""

/-- `http.StatusOK`. -/
def StatusOK : Int := 200

/-- `req.Header.Set`. -/
def HeaderSet (h : List (String × String)) (key value : String) : List (String × String) :=
  (key, value) :: h.filter (fun kv => decide (kv.1 ≠ key))

/-- `http.NewRequest(method, url, body)` for a valid method: the request with an
empty header, or the error of parsing the URL. -/
def NewRequest (w : World) (method url body : String) : Except String HttpRequest :=
  match w.parseURL url with
  | Except.error e => Except.error e
  | Except.ok _ => Except.ok ⟨method, url, [], body⟩

/-- `sendSlackMessage`: the returned error (`none` is `nil`) and the requests
passed to `client.Do`, in order. -/
def sendSlackMessage (w : World) (webhookURL : String) (message : SlackMessage) :
    Option String × List HttpRequest :=
  match Marshal message with
  | Except.error e => (some ("failed to marshal message: " ++ e), [])
  | Except.ok jsonData =>
    match NewRequest w "POST" webhookURL jsonData with
    | Except.error e => (some ("failed to create request: " ++ e), [])
    | Except.ok req0 =>
      let req : HttpRequest :=
        ⟨req0.Method, req0.URL, HeaderSet req0.Header "Content-Type" "application/json", req0.Body⟩
      match w.roundTrip req with
      | Except.error e => (some ("failed to send request: " ++ e), [req])
      | Except.ok resp =>
        if resp.StatusCode ≠ StatusOK then
          (some ("Slack API returned status " ++ toString resp.StatusCode ++ ": " ++ resp.Body), [req])
        else (none, [req])

/-- What a call of `handleSendMessage` produces: the two Go return values and
the requests passed to `client.Do` on the way. -/
structure HandlerReturn where
  result : Option CallToolResult
  err : Option String
  calls : List HttpRequest
  deriving DecidableEq, Repr

/-- The message `handleSendMessage` builds from a request once `text` is known. -/
def buildMessage (request : CallToolRequest) (text : String) : SlackMessage :=
  let message : SlackMessage := ⟨text, "", "", "", "", true⟩
  let channel := request.GetString "channel" ""
  let message : SlackMessage :=
    if channel ≠ "" then ⟨message.Text, channel, message.Username, message.IconEmoji,
      message.IconURL, message.Markdown⟩ else message
  let username := request.GetString "username" ""
  let message : SlackMessage :=
    if username ≠ "" then ⟨message.Text, message.Channel, username, message.IconEmoji,
      message.IconURL, message.Markdown⟩ else message
  let iconEmoji := request.GetString "icon_emoji" ""
  let message : SlackMessage :=
    if iconEmoji ≠ "" then ⟨message.Text, message.Channel, message.Username, iconEmoji,
      message.IconURL, message.Markdown⟩ else message
  let iconURL := request.GetString "icon_url" ""
  let message : SlackMessage :=
    if iconURL ≠ "" then ⟨message.Text, message.Channel, message.Username, message.IconEmoji,
      iconURL, message.Markdown⟩ else message
  ⟨message.Text, message.Channel, message.Username, message.IconEmoji, message.IconURL,
    request.GetBool "markdown" true⟩

/-- `handleSendMessage`. -/
def handleSendMessage (w : World) (request : CallToolRequest) : HandlerReturn :=
  let webhookURL := w.Getenv "SLACK_WEBHOOK_URL"
  if webhookURL = "" then
    ⟨some (NewToolResultError "SLACK_WEBHOOK_URL environment variable is required"), none, []⟩
  else
    match request.RequireString "text" with
    | Except.error _ => ⟨some (NewToolResultError "text is required"), none, []⟩
    | Except.ok text =>
      let message := buildMessage request text
      match sendSlackMessage w webhookURL message with
      | (some e, calls) =>
        ⟨some (NewToolResultError ("Failed to send message: " ++ e)), none, calls⟩
      | (none, calls) =>
        ⟨some (NewToolResultText "Message sent successfully to Slack"), none, calls⟩

/-! ## Sample worlds and requests -/

/-- An environment in which only `SLACK_WEBHOOK_URL` is set, to `url`. -/
def envWith (url : String) : String → Option String :=
  fun k => if k = "SLACK_WEBHOOK_URL" then some url else none

/-- A world with the endpoint configured, where every URL parses and the
endpoint answers every request with the given status and body. -/
def answering (status : Int) (body : String) : World :=
  ⟨envWith "https://hooks.slack.com/services/T0/B0/X0", fun _ => Except.ok (),
    fun _ => Except.ok ⟨status, body⟩⟩

/-- A world like `answering 200 "ok"` but with no `SLACK_WEBHOOK_URL`. -/
def unconfigured : World :=
  ⟨fun _ => none, fun _ => Except.ok (), fun _ => Except.ok ⟨200, "ok"⟩⟩

/-- The request `sendSlackMessage` is expected to hand to `client.Do`: a POST to
`url` with the JSON content type and the given body. -/
def postRequest (url body : String) : HttpRequest :=
  ⟨"POST", url, [("Content-Type", "application/json")], body⟩

/-- A world with the endpoint variable set to `url`, in which `url.Parse` rejects
a URL holding an ASCII control character (below 32, or 127) and accepts the
others, and the endpoint answers 200. The message is the cause `url.Parse`
reports, without the `parse "<url>": ` it is wrapped in. -/
def strictParse (url : String) : World :=
  ⟨envWith url,
    fun u => if u.data.any (fun c => decide (c.toNat < 32 ∨ c.toNat = 127)) then
      Except.error "net/url: invalid control character in URL" else Except.ok (),
    fun _ => Except.ok ⟨200, "ok"⟩⟩

/-- One of the failures of the error handling design happens in a call:
the endpoint variable is unset or empty, `text` is missing (or not a string),
or, with the message built, serialization fails, request creation fails, the
transport fails, or the status of the response is not `http.StatusOK`. -/
def failureOccurs (w : World) (request : CallToolRequest) : Prop :=
  w.Getenv "SLACK_WEBHOOK_URL" = "" ∨
  (∀ s, request.arg "text" ≠ some (Value.str s)) ∨
  ∃ text, request.arg "text" = some (Value.str text) ∧
    ((∃ e, Marshal (buildMessage request text) = Except.error e) ∨
     (∃ e, w.parseURL (w.Getenv "SLACK_WEBHOOK_URL") = Except.error e) ∨
     (∃ e, w.roundTrip (postRequest (w.Getenv "SLACK_WEBHOOK_URL")
        (encodeStruct (buildMessage request text).fields)) = Except.error e) ∨
     (∃ resp, w.roundTrip (postRequest (w.Getenv "SLACK_WEBHOOK_URL")
        (encodeStruct (buildMessage request text).fields)) = Except.ok resp ∧
        resp.StatusCode ≠ StatusOK))

/-! ## Reading the encoded object -/

/-- The text an `omitempty` string field contributes to the object after the
first member: nothing when the string is empty, otherwise `,"name":` followed by
the string literal. -/
def optionalMember (name value : String) : String :=
  if value = "" then "" else ",\"" ++ name ++ "\":" ++ appendString value

/-- The number a hexadecimal digit stands for, `none` for any other character. -/
def hexValue (c : Char) : Option Nat :=
  let n := c.toNat
  if 48 ≤ n ∧ n ≤ 57 then some (n - 48)
  else if 97 ≤ n ∧ n ≤ 102 then some (n - 87)
  else if 65 ≤ n ∧ n ≤ 70 then some (n - 55)
  else none

/-- Reading one character of the inside of a JSON string literal (RFC 8259),
with the characters that follow it: a backslash starts one of the escapes
`\" \\ \/ \b \f \n \r \t` or `\u` with four hexadecimal digits naming a scalar
value; a quotation mark or a control character is not a character of the
inside; any other character stands for itself. -/
def decodeHead : List Char → Option (Char × List Char)
  | [] => none
  | c :: cs =>
    if c.toNat = 92 then
      match cs with
      | [] => none
      | e :: rest =>
        if e.toNat = 117 then
          match rest with
          | a :: b :: c2 :: d :: rest2 =>
            match hexValue a, hexValue b, hexValue c2, hexValue d with
            | some x, some y, some z, some t =>
              if (((x * 16 + y) * 16 + z) * 16 + t).isValidChar then
                some (Char.ofNat (((x * 16 + y) * 16 + z) * 16 + t), rest2)
              else none
            | _, _, _, _ => none
          | _ => none
        else if e.toNat = 34 ∨ e.toNat = 92 ∨ e.toNat = 47 then some (e, rest)
        else if e.toNat = 98 then some (Char.ofNat 8, rest)
        else if e.toNat = 102 then some (Char.ofNat 12, rest)
        else if e.toNat = 110 then some (Char.ofNat 10, rest)
        else if e.toNat = 114 then some (Char.ofNat 13, rest)
        else if e.toNat = 116 then some (Char.ofNat 9, rest)
        else none
    else if c.toNat = 34 ∨ c.toNat < 32 then none
    else some (c, cs)

/-- Reading the inside of a JSON string literal up to and including the closing
quotation mark: the characters it denotes and what follows the literal. Each
step consumes input, so a fuel of the length of the input is enough. -/
def readLiteral : Nat → List Char → Option (List Char × List Char)
  | 0, _ => none
  | _ + 1, [] => none
  | fuel + 1, c :: cs =>
    if c.toNat = 34 then some ([], cs)
    else
      match decodeHead (c :: cs) with
      | none => none
      | some (d, rest) =>
        match readLiteral fuel rest with
        | none => none
        | some (ds, rest2) => some (d :: ds, rest2)

/-- Reading a JSON string literal, opening quotation mark included. -/
def readString : List Char → Option (String × List Char)
  | [] => none
  | q :: cs =>
    if q.toNat = 34 then
      match readLiteral cs.length cs with
      | some (ds, rest) => some (⟨ds⟩, rest)
      | none => none
    else none

/-- Taking the characters `p` off the front of a text, if it starts with them. -/
def dropLeading : List Char → List Char → Option (List Char)
  | [], l => some l
  | _ :: _, [] => none
  | p :: ps, c :: cs => if p = c then dropLeading ps cs else none

/-- Reading a JSON value that is `true`, `false` or a string literal. -/
def readValue (l : List Char) : Option (FieldValue × List Char) :=
  match dropLeading "true".data l with
  | some rest => some (FieldValue.bool true, rest)
  | none =>
    match dropLeading "false".data l with
    | some rest => some (FieldValue.bool false, rest)
    | none =>
      match readString l with
      | some (s, rest) => some (FieldValue.string s, rest)
      | none => none

/-- Reading one member `"key":value` of a JSON object. -/
def readMember (l : List Char) : Option ((String × FieldValue) × List Char) :=
  match readString l with
  | none => none
  | some (key, rest) =>
    match rest with
    | [] => none
    | c :: rest1 =>
      if c.toNat = 58 then
        match readValue rest1 with
        | some (v, rest2) => some ((key, v), rest2)
        | none => none
      else none

/-- Reading the members of a JSON object after the opening brace, separated by
commas and closed by a brace: the members in order and what follows the
object. -/
def readMembers : Nat → List Char → Option (List (String × FieldValue) × List Char)
  | 0, _ => none
  | fuel + 1, l =>
    match readMember l with
    | none => none
    | some (kv, rest) =>
      match rest with
      | [] => none
      | c :: rest1 =>
        if c.toNat = 125 then some ([kv], rest1)
        else if c.toNat = 44 then
          match readMembers fuel rest1 with
          | some (kvs, rest2) => some (kv :: kvs, rest2)
          | none => none
        else none

/-- Reading a text as a JSON object (RFC 8259, without insignificant white
space) whose values are strings and booleans: its members in order, or `none`
when the text is not such an object. This is how the receiving service sees the
body of the request. -/
def readObject (body : String) : Option (List (String × FieldValue)) :=
  match body.data with
  | [] => none
  | c :: rest =>
    if c.toNat = 123 then
      if rest = [Char.ofNat 125] then some []
      else
        match readMembers rest.length rest with
        | some (kvs, []) => some kvs
        | _ => none
    else none

/-- The member a string parameter is expected to give in the object: none when
the value is empty, otherwise the key with that value. -/
def optionalPair (name value : String) : List (String × FieldValue) :=
  if value = "" then [] else [(name, FieldValue.string value)]

/-- The rest of a comma separated sequence after its first item: each further
item preceded by the separator. It describes the text `String.intercalate`
builds. -/
def joinData (sep : List Char) : List String → List Char
  | [] => []
  | x :: xs => sep ++ x.data ++ joinData sep xs

/-! ## Basic facts about the accessors and the two functions -/

theorem requireString_ok_iff (r : CallToolRequest) (key s : String) :
    r.RequireString key = Except.ok s ↔ r.arg key = some (Value.str s) := by
  unfold CallToolRequest.RequireString
  cases h : r.arg key with
  | none => simp
  | some v => cases v <;> simp

theorem requireString_error_iff (r : CallToolRequest) (key : String) :
    (∃ e, r.RequireString key = Except.error e) ↔ ∀ s, r.arg key ≠ some (Value.str s) := by
  unfold CallToolRequest.RequireString
  cases h : r.arg key with
  | none => simp
  | some v => cases v <;> simp

theorem getString_eq (r : CallToolRequest) (key v : String) :
    r.GetString key "" = v ↔ (r.arg key = some (Value.str v) ∨
      (v = "" ∧ ∀ s, r.arg key ≠ some (Value.str s))) := by
  unfold CallToolRequest.GetString
  cases h : r.arg key with
  | none => simp [eq_comm]
  | some x => cases x <;> simp [eq_comm]

theorem handle_unconfigured (w : World) (request : CallToolRequest)
    (h : w.Getenv "SLACK_WEBHOOK_URL" = "") :
    handleSendMessage w request =
      ⟨some (NewToolResultError "SLACK_WEBHOOK_URL environment variable is required"), none, []⟩ := by
  simp [handleSendMessage, h]

theorem handle_no_text (w : World) (request : CallToolRequest)
    (h : w.Getenv "SLACK_WEBHOOK_URL" ≠ "") (ht : ∀ s, request.arg "text" ≠ some (Value.str s)) :
    handleSendMessage w request = ⟨some (NewToolResultError "text is required"), none, []⟩ := by
  obtain ⟨e, he⟩ := (requireString_error_iff request "text").2 ht
  simp [handleSendMessage, h, he]

theorem handle_valid (w : World) (request : CallToolRequest) (text : String)
    (h : w.Getenv "SLACK_WEBHOOK_URL" ≠ "") (ht : request.arg "text" = some (Value.str text)) :
    handleSendMessage w request =
      match sendSlackMessage w (w.Getenv "SLACK_WEBHOOK_URL") (buildMessage request text) with
      | (some e, calls) =>
        ⟨some (NewToolResultError ("Failed to send message: " ++ e)), none, calls⟩
      | (none, calls) =>
        ⟨some (NewToolResultText "Message sent successfully to Slack"), none, calls⟩ := by
  have he := (requireString_ok_iff request "text" text).2 ht
  simp [handleSendMessage, h, he]

theorem send_parse_error (w : World) (url e : String) (m : SlackMessage)
    (hp : w.parseURL url = Except.error e) :
    sendSlackMessage w url m = (some ("failed to create request: " ++ e), []) := by
  simp [sendSlackMessage, Marshal, NewRequest, hp]

theorem send_do_error (w : World) (url e : String) (m : SlackMessage)
    (hp : w.parseURL url = Except.ok ())
    (hd : w.roundTrip (postRequest url (encodeStruct m.fields)) = Except.error e) :
    sendSlackMessage w url m =
      (some ("failed to send request: " ++ e), [postRequest url (encodeStruct m.fields)]) := by
  simp [sendSlackMessage, Marshal, NewRequest, hp, HeaderSet, postRequest] at hd ⊢
  simp [hd]

theorem send_response (w : World) (url : String) (m : SlackMessage) (resp : HttpResponse)
    (hp : w.parseURL url = Except.ok ())
    (hd : w.roundTrip (postRequest url (encodeStruct m.fields)) = Except.ok resp) :
    sendSlackMessage w url m =
      (if resp.StatusCode ≠ StatusOK then
        some ("Slack API returned status " ++ toString resp.StatusCode ++ ": " ++ resp.Body)
       else none, [postRequest url (encodeStruct m.fields)]) := by
  simp [sendSlackMessage, Marshal, NewRequest, hp, HeaderSet, postRequest] at hd ⊢
  simp [hd]
  split <;> simp

theorem failed_ne_required (e : String) : "Failed to send message: " ++ e ≠ "text is required" := by
  intro h
  have := congrArg String.data h
  simp at this

theorem failed_status_append (x : String) :
    "Failed to send message: " ++ ("Slack API returned status " ++ x) =
      "Failed to send message: Slack API returned status " ++ x := by
  rw [← String.append_assoc]
  rfl

/-! ## Facts about the encoder -/

theorem data_nil_iff (s : String) : s.data = [] ↔ s = "" := by
  cases s
  simp [String.ext_iff]

theorem buildMessage_eq (request : CallToolRequest) (text : String) :
    buildMessage request text =
      ⟨text, request.GetString "channel" "", request.GetString "username" "",
        request.GetString "icon_emoji" "", request.GetString "icon_url" "",
        request.GetBool "markdown" true⟩ := by
  unfold buildMessage
  by_cases h1 : request.GetString "channel" "" = "" <;>
  by_cases h2 : request.GetString "username" "" = "" <;>
  by_cases h3 : request.GetString "icon_emoji" "" = "" <;>
  by_cases h4 : request.GetString "icon_url" "" = "" <;>
  simp [h1, h2, h3, h4]

theorem encodeStruct_fields (m : SlackMessage) :
    encodeStruct m.fields =
      "\x7b\"text\":" ++ appendString m.Text ++ optionalMember "channel" m.Channel
        ++ optionalMember "username" m.Username ++ optionalMember "icon_emoji" m.IconEmoji
        ++ optionalMember "icon_url" m.IconURL
        ++ (if m.Markdown = true then ",\"mrkdwn\":true" else "") ++ "\x7d" := by
  apply String.ext
  by_cases h1 : m.Channel = "" <;> by_cases h2 : m.Username = "" <;>
  by_cases h3 : m.IconEmoji = "" <;> by_cases h4 : m.IconURL = "" <;>
  cases h : m.Markdown <;>
  simp [encodeStruct, emitted, SlackMessage.fields, List.filter, isEmptyValue, optionalMember,
    data_nil_iff, h, h1, h2, h3, h4, String.intercalate, String.intercalate.go, encodeMember,
    encodeValue, String.data_append]

theorem char_eq_of_toNat (c : Char) (n : Nat) (h : c.toNat = n) : c = Char.ofNat n := by
  subst h
  exact (Char.ofNat_toNat c).symm

theorem hexValue_hexDigit (k : Nat) (h : k < 16) : hexValue (hexDigit k) = some k := by
  interval_cases k <;> rfl

theorem decodeHead_escapeRune (c : Char) (rest : List Char) :
    decodeHead (escapeRune c ++ rest) = some (c, rest) := by
  unfold escapeRune
  simp only
  split_ifs with h1 h2 h3 h4 h5 h6 h7 h8
  · rcases h1 with h | h <;> simp [decodeHead, h]
  · simp [decodeHead, char_eq_of_toNat c 8 h2]
  · simp [decodeHead, char_eq_of_toNat c 12 h3]
  · simp [decodeHead, char_eq_of_toNat c 10 h4]
  · simp [decodeHead, char_eq_of_toNat c 13 h5]
  · simp [decodeHead, char_eq_of_toNat c 9 h6]
  · have hlt : c.toNat < 64 := by omega
    have e1 := hexValue_hexDigit (c.toNat / 16) (by omega)
    have e2 := hexValue_hexDigit (c.toNat % 16) (by omega)
    have e0 : hexValue (Char.ofNat 48) = some 0 := rfl
    have hv : (c.toNat / 16 * 16 + c.toNat % 16).isValidChar := by
      rw [Nat.div_add_mod']
      exact Or.inl (by omega)
    simp only [decodeHead]
    simp [e0, e1, e2, hv]
    rw [Nat.div_add_mod']
    exact Char.ofNat_toNat c
  · have e2 := hexValue_hexDigit (c.toNat % 16) (Nat.mod_lt _ (by decide))
    have e0 : hexValue (Char.ofNat 48) = some 0 := rfl
    have e3 : hexValue (Char.ofNat 50) = some 2 := rfl
    have hv : (8224 + c.toNat % 16).isValidChar := Or.inl (by omega)
    simp only [decodeHead]
    simp [e0, e2, e3, hv]
    rcases h8 with h | h <;> rw [h] <;> exact (char_eq_of_toNat c _ h).symm
  · have h92 : ¬ c.toNat = 92 := fun h => h1 (Or.inr h)
    have h34 : ¬ c.toNat = 34 := fun h => h1 (Or.inl h)
    have h32 : ¬ c.toNat < 32 := fun h => h7 (Or.inl h)
    simp [decodeHead, h92, h34, h32]

theorem escapeRunes_injective : ∀ l1 l2 : List Char, escapeRunes l1 = escapeRunes l2 → l1 = l2
  | [], [], _ => rfl
  | [], b :: l2, h => by
    have := decodeHead_escapeRune b (escapeRunes l2)
    rw [show escapeRune b ++ escapeRunes l2 = escapeRunes (b :: l2) from rfl, ← h] at this
    simp [escapeRunes, decodeHead] at this
  | a :: l1, [], h => by
    have := decodeHead_escapeRune a (escapeRunes l1)
    rw [show escapeRune a ++ escapeRunes l1 = escapeRunes (a :: l1) from rfl, h] at this
    simp [escapeRunes, decodeHead] at this
  | a :: l1, b :: l2, h => by
    have ha := decodeHead_escapeRune a (escapeRunes l1)
    have hb := decodeHead_escapeRune b (escapeRunes l2)
    rw [show escapeRune a ++ escapeRunes l1 = escapeRunes (a :: l1) from rfl, h,
      show escapeRunes (b :: l2) = escapeRune b ++ escapeRunes l2 from rfl, hb] at ha
    simp only [Option.some.injEq, Prod.mk.injEq] at ha
    rw [ha.1, escapeRunes_injective l1 l2 ha.2.symm]

theorem appendString_injective : Function.Injective appendString := by
  intro a b h
  have hd := congrArg String.data h
  simp only [appendString, List.cons.injEq, true_and] at hd
  exact String.ext (escapeRunes_injective _ _ (List.append_cancel_right hd))

theorem escapeRune_head (c : Char) :
    ∃ h t, escapeRune c = h :: t ∧ h.toNat ≠ 34 := by
  unfold escapeRune
  simp only
  split_ifs with h1 h2 h3 h4 h5 h6 h7 h8
  · exact ⟨_, _, rfl, by decide⟩
  · exact ⟨_, _, rfl, by decide⟩
  · exact ⟨_, _, rfl, by decide⟩
  · exact ⟨_, _, rfl, by decide⟩
  · exact ⟨_, _, rfl, by decide⟩
  · exact ⟨_, _, rfl, by decide⟩
  · exact ⟨_, _, rfl, by decide⟩
  · exact ⟨_, _, rfl, by decide⟩
  · exact ⟨_, _, rfl, fun h => h1 (Or.inl h)⟩

theorem length_le_escapeRunes : ∀ l : List Char, l.length ≤ (escapeRunes l).length
  | [] => Nat.le_refl _
  | c :: cs => by
    obtain ⟨h, t, e, _⟩ := escapeRune_head c
    have := length_le_escapeRunes cs
    simp only [escapeRunes, e, List.length_append, List.length_cons]
    omega

theorem readLiteral_escapeRunes : ∀ (l : List Char) (fuel : Nat) (rest : List Char),
    l.length < fuel →
    readLiteral fuel (escapeRunes l ++ Char.ofNat 34 :: rest) = some (l, rest)
  | [], fuel, rest, hf => by
    obtain ⟨n, rfl⟩ : ∃ n, fuel = n + 1 := ⟨fuel - 1, by simp at hf; omega⟩
    simp [escapeRunes, readLiteral]
  | c :: cs, fuel, rest, hf => by
    obtain ⟨n, rfl⟩ : ∃ n, fuel = n + 1 := ⟨fuel - 1, by simp at hf; omega⟩
    have hn : cs.length < n := by simp at hf; omega
    have ih := readLiteral_escapeRunes cs n rest hn
    have hd := decodeHead_escapeRune c (escapeRunes cs ++ Char.ofNat 34 :: rest)
    obtain ⟨h, t, e, h34⟩ := escapeRune_head c
    have hl : escapeRunes (c :: cs) ++ Char.ofNat 34 :: rest =
        h :: (t ++ (escapeRunes cs ++ Char.ofNat 34 :: rest)) := by
      simp [escapeRunes, e]
    rw [e] at hd
    rw [hl, readLiteral, if_neg h34]
    simp only [List.cons_append] at hd
    rw [hd]
    simp only [ih]

theorem readString_appendString (s : String) (rest : List Char) :
    readString ((appendString s).data ++ rest) = some (s, rest) := by
  have hlen : s.data.length < (escapeRunes s.data ++ Char.ofNat 34 :: rest).length := by
    have := length_le_escapeRunes s.data
    simp only [List.length_append, List.length_cons]
    omega
  have h := readLiteral_escapeRunes s.data _ rest hlen
  simp only [appendString, List.cons_append, List.append_assoc, List.singleton_append,
    List.nil_append, readString]
  rw [if_pos (by decide), h]

theorem intercalate_go_data (sep : String) : ∀ (xs : List String) (acc : String),
    (String.intercalate.go acc sep xs).data = acc.data ++ joinData sep.data xs
  | [], acc => by simp [String.intercalate.go, joinData]
  | x :: xs, acc => by
    simp [String.intercalate.go, joinData, intercalate_go_data sep xs, String.data_append]

theorem length_le_joinData (c : Char) : ∀ xs : List String, xs.length ≤ (joinData [c] xs).length
  | [] => Nat.le_refl _
  | x :: xs => by
    have := length_le_joinData c xs
    simp only [joinData, List.length_append, List.length_cons, List.length_nil]
    omega

theorem dropLeading_append : ∀ (p rest : List Char), dropLeading p (p ++ rest) = some rest
  | [], rest => by cases rest <;> rfl
  | a :: p, rest => by
    simp [dropLeading, dropLeading_append p rest]

theorem readValue_encodeValue (v : FieldValue) (rest : List Char) :
    readValue ((encodeValue v).data ++ rest) = some (v, rest) := by
  cases v with
  | string s =>
    have h1 : ∀ p : List Char, p.head? ≠ some (Char.ofNat 34) → p ≠ [] →
        dropLeading p ((appendString s).data ++ rest) = none := by
      intro p hp hne
      cases p with
      | nil => exact absurd rfl hne
      | cons a p =>
        simp only [appendString, List.cons_append, dropLeading]
        rw [if_neg]
        intro h
        exact hp (by simp [h])
    simp only [readValue, encodeValue]
    rw [h1 "true".data (by decide) (by decide), h1 "false".data (by decide) (by decide),
      readString_appendString]
  | bool b =>
    cases b with
    | true =>
      simp only [readValue, encodeValue]
      rw [dropLeading_append]
    | false =>
      have : dropLeading "true".data ("false".data ++ rest) = none := rfl
      simp only [readValue, encodeValue]
      rw [this, dropLeading_append]

theorem readMember_encodeMember (f : Field) (rest : List Char)
    (hplain : escapeRunes f.name.data = f.name.data) :
    readMember ((encodeMember f).data ++ rest) = some ((f.name, f.value), rest) := by
  have hd : (encodeMember f).data ++ rest =
      (appendString f.name).data ++ (Char.ofNat 58 :: ((encodeValue f.value).data ++ rest)) := by
    simp only [encodeMember, appendString, String.data_append, hplain]
    have e1 : "\"".data = [Char.ofNat 34] := rfl
    have e2 : "\":".data = [Char.ofNat 34, Char.ofNat 58] := rfl
    simp [e1, e2]
  rw [hd]
  simp only [readMember, readString_appendString]
  rw [if_pos (by decide), readValue_encodeValue]

theorem readMembers_encode : ∀ (rs : List Field) (f : Field) (fuel : Nat) (rest : List Char),
    rs.length < fuel →
    (∀ g ∈ f :: rs, escapeRunes g.name.data = g.name.data) →
    readMembers fuel ((encodeMember f).data ++
      (joinData [Char.ofNat 44] (rs.map encodeMember) ++ Char.ofNat 125 :: rest)) =
      some ((f :: rs).map (fun g => (g.name, g.value)), rest)
  | [], f, fuel, rest, hf, hp => by
    obtain ⟨n, rfl⟩ : ∃ n, fuel = n + 1 := ⟨fuel - 1, by simp at hf; omega⟩
    simp only [readMembers, List.map_nil, joinData, List.nil_append]
    rw [readMember_encodeMember f _ (hp f (by simp))]
    simp only
    rw [if_pos (by decide)]
    rfl
  | g :: rs, f, fuel, rest, hf, hp => by
    obtain ⟨n, rfl⟩ : ∃ n, fuel = n + 1 := ⟨fuel - 1, by simp at hf; omega⟩
    have hn : rs.length < n := by simp at hf; omega
    have ih := readMembers_encode rs g n rest hn (fun x hx => hp x (List.mem_cons_of_mem _ hx))
    simp only [readMembers, List.map_cons, joinData, List.append_assoc, List.singleton_append,
      List.cons_append]
    rw [readMember_encodeMember f _ (hp f (by simp))]
    simp only
    rw [if_neg (by decide), if_pos (by decide)]
    simp only [List.nil_append, ih]
    rfl

theorem readObject_encodeStruct (fs : List Field)
    (hplain : ∀ g ∈ fs, escapeRunes g.name.data = g.name.data) :
    readObject (encodeStruct fs) = some ((emitted fs).map (fun g => (g.name, g.value))) := by
  have hsub : ∀ g ∈ emitted fs, escapeRunes g.name.data = g.name.data :=
    fun g hg => hplain g (List.mem_of_mem_filter hg)
  unfold encodeStruct
  cases he : emitted fs with
  | nil => rfl
  | cons f rs =>
    rw [he] at hsub
    have e1 : "\x7b".data = [Char.ofNat 123] := rfl
    have e2 : "\x7d".data = [Char.ofNat 125] := rfl
    have e3 : ",".data = [Char.ofNat 44] := rfl
    have hd : ("\x7b" ++ ",".intercalate ((f :: rs).map encodeMember) ++ "\x7d").data =
        Char.ofNat 123 :: ((encodeMember f).data ++
          (joinData [Char.ofNat 44] (rs.map encodeMember) ++ Char.ofNat 125 :: [])) := by
      simp [String.intercalate, intercalate_go_data, String.data_append, e1, e2, e3]
    have hm := readMembers_encode rs f
      ((encodeMember f).data ++
        (joinData [Char.ofNat 44] (rs.map encodeMember) ++ Char.ofNat 125 :: [])).length [] (by
        have := length_le_joinData (Char.ofNat 44) (rs.map encodeMember)
        simp only [List.length_append, List.length_cons, List.length_nil, List.length_map] at this ⊢
        omega) hsub
    have hne : (encodeMember f).data ++
        (joinData [Char.ofNat 44] (rs.map encodeMember) ++ Char.ofNat 125 :: []) ≠
        [Char.ofNat 125] := by
      have e4 : "\"".data = [Char.ofNat 34] := rfl
      simp only [encodeMember, String.data_append, e4, List.append_assoc, List.singleton_append,
        List.cons_append, List.nil_append]
      intro h
      have := (List.cons.inj h).1
      revert this
      decide
    simp only [readObject, hd]
    rw [if_pos (by decide), if_neg hne, hm]

theorem fields_plain (m : SlackMessage) :
    ∀ g ∈ m.fields, escapeRunes g.name.data = g.name.data := by
  intro g hg
  simp only [SlackMessage.fields, List.mem_cons, List.mem_singleton, List.not_mem_nil,
    or_false] at hg
  rcases hg with rfl | rfl | rfl | rfl | rfl | rfl <;> rfl

theorem emitted_pairs (m : SlackMessage) :
    (emitted m.fields).map (fun g => (g.name, g.value)) =
      ("text", FieldValue.string m.Text) ::
        (optionalPair "channel" m.Channel ++ optionalPair "username" m.Username
          ++ optionalPair "icon_emoji" m.IconEmoji ++ optionalPair "icon_url" m.IconURL
          ++ (if m.Markdown = true then [("mrkdwn", FieldValue.bool true)] else [])) := by
  by_cases h1 : m.Channel = "" <;> by_cases h2 : m.Username = "" <;>
  by_cases h3 : m.IconEmoji = "" <;> by_cases h4 : m.IconURL = "" <;>
  cases h : m.Markdown <;>
  simp [emitted, SlackMessage.fields, List.filter, isEmptyValue, optionalPair,
    data_nil_iff, h, h1, h2, h3, h4]

theorem readObject_message (m : SlackMessage) :
    readObject (encodeStruct m.fields) =
      some (("text", FieldValue.string m.Text) ::
        (optionalPair "channel" m.Channel ++ optionalPair "username" m.Username
          ++ optionalPair "icon_emoji" m.IconEmoji ++ optionalPair "icon_url" m.IconURL
          ++ (if m.Markdown = true then [("mrkdwn", FieldValue.bool true)] else []))) := by
  rw [readObject_encodeStruct m.fields (fields_plain m), emitted_pairs]

theorem lookup_members (t a b c d : String) (k : Bool) :
    let members := ("text", FieldValue.string t) ::
        (optionalPair "channel" a ++ optionalPair "username" b
          ++ optionalPair "icon_emoji" c ++ optionalPair "icon_url" d
          ++ (if k = true then [("mrkdwn", FieldValue.bool true)] else []))
    members.lookup "text" = some (FieldValue.string t) ∧
    members.lookup "channel" = (if a = "" then none else some (FieldValue.string a)) ∧
    members.lookup "username" = (if b = "" then none else some (FieldValue.string b)) ∧
    members.lookup "icon_emoji" = (if c = "" then none else some (FieldValue.string c)) ∧
    members.lookup "icon_url" = (if d = "" then none else some (FieldValue.string d)) ∧
    members.lookup "mrkdwn" = (if k = true then some (FieldValue.bool true) else none) := by
  by_cases h1 : a = "" <;> by_cases h2 : b = "" <;>
  by_cases h3 : c = "" <;> by_cases h4 : d = "" <;>
  cases k <;>
  simp [optionalPair, List.lookup, h1, h2, h3, h4]

theorem supplied_some_iff (request : CallToolRequest) (key v : String) :
    (if request.GetString key "" = "" then none
      else some (FieldValue.string (request.GetString key ""))) = some (FieldValue.string v) ↔
    (request.arg key = some (Value.str v) ∧ v ≠ "") := by
  unfold CallToolRequest.GetString
  cases h : request.arg key with
  | none => simp
  | some x =>
    cases x with
    | str s =>
      by_cases hs : s = ""
      · subst hs
        simp
        intro hv
        exact hv.symm
      · simp [hs]
        intro hv
        subst hv
        exact hs
    | _ => simp

theorem supplied_none_iff (request : CallToolRequest) (key : String) :
    (if request.GetString key "" = "" then none
      else some (FieldValue.string (request.GetString key ""))) = none ↔
    ∀ v, request.arg key = some (Value.str v) → v = "" := by
  unfold CallToolRequest.GetString
  cases h : request.arg key with
  | none => simp
  | some x => cases x <;> simp

theorem calls_body (w : World) (request : CallToolRequest) (text : String)
    (hurl : w.Getenv "SLACK_WEBHOOK_URL" ≠ "")
    (htext : request.arg "text" = some (Value.str text)) :
    ∀ r ∈ (handleSendMessage w request).calls,
      r = postRequest (w.Getenv "SLACK_WEBHOOK_URL")
        (encodeStruct (buildMessage request text).fields) := by
  rw [handle_valid w request text hurl htext]
  cases hp : w.parseURL (w.Getenv "SLACK_WEBHOOK_URL") with
  | error e =>
    rw [send_parse_error w _ e _ hp]
    simp
  | ok u =>
    cases u
    cases hd : w.roundTrip (postRequest (w.Getenv "SLACK_WEBHOOK_URL")
        (encodeStruct (buildMessage request text).fields)) with
    | error e =>
      rw [send_do_error w _ e _ hp hd]
      simp
    | ok resp =>
      rw [send_response w _ _ resp hp hd]
      by_cases h : resp.StatusCode = StatusOK <;> simp [h]

theorem calls_when_created (w : World) (request : CallToolRequest) (text : String)
    (hurl : w.Getenv "SLACK_WEBHOOK_URL" ≠ "")
    (htext : request.arg "text" = some (Value.str text))
    (hp : w.parseURL (w.Getenv "SLACK_WEBHOOK_URL") = Except.ok ()) :
    (handleSendMessage w request).calls =
      [postRequest (w.Getenv "SLACK_WEBHOOK_URL")
        (encodeStruct (buildMessage request text).fields)] := by
  rw [handle_valid w request text hurl htext]
  cases hd : w.roundTrip (postRequest (w.Getenv "SLACK_WEBHOOK_URL")
      (encodeStruct (buildMessage request text).fields)) with
  | error e =>
    rw [send_do_error w _ e _ hp hd]
  | ok resp =>
    rw [send_response w _ _ resp hp hd]
    by_cases h : resp.StatusCode = StatusOK <;> simp [h]

/-! ## Validation -/

/-- C2: when `SLACK_WEBHOOK_URL` is unset or empty, whatever the request is, the
handler returns the error result with the configuration message, a nil error,
and makes no HTTP call. -/
theorem C2_unconfigured_is_error_without_call (w : World) (request : CallToolRequest)
    (h : w.environ "SLACK_WEBHOOK_URL" = none ∨ w.environ "SLACK_WEBHOOK_URL" = some "") :
    handleSendMessage w request =
      ⟨some (NewToolResultError "SLACK_WEBHOOK_URL environment variable is required"), none, []⟩ := by
  apply handle_unconfigured
  rcases h with h | h <;> simp [World.Getenv, h]

theorem C2_unconfigured_witness :
    (unconfigured.environ "SLACK_WEBHOOK_URL" = none ∨
      unconfigured.environ "SLACK_WEBHOOK_URL" = some "") ∧
    handleSendMessage unconfigured ⟨some [("text", Value.str "x")]⟩ =
      ⟨some (NewToolResultError "SLACK_WEBHOOK_URL environment variable is required"), none, []⟩ :=
  ⟨Or.inl rfl, C2_unconfigured_is_error_without_call unconfigured _ (Or.inl rfl)⟩

/-- C1 (as stated, refuted): with the endpoint configured and `text` supplied as
the empty string, the handler does not answer "text is required": it posts the
message with an empty text and reports success. -/
theorem C1_empty_text_is_sent :
    (answering 200 "ok").Getenv "SLACK_WEBHOOK_URL" ≠ "" ∧
    (CallToolRequest.mk (some [("text", Value.str "")])).arg "text" = some (Value.str "") ∧
    handleSendMessage (answering 200 "ok") ⟨some [("text", Value.str "")]⟩ =
      ⟨some (NewToolResultText "Message sent successfully to Slack"), none,
        [postRequest "https://hooks.slack.com/services/T0/B0/X0"
          "\x7b\"text\":\"\",\"mrkdwn\":true\x7d"]⟩ := by
  decide

/-- C1 (amended): with a non-empty `SLACK_WEBHOOK_URL`, a call in which `text` is
missing (or is not a string) returns the error result "text is required", a nil
error, and makes no HTTP call; a call in which `text` is a string, the empty one
included, never gets that validation error. -/
theorem C1_missing_text_is_error_without_call (w : World) (request : CallToolRequest)
    (hurl : w.Getenv "SLACK_WEBHOOK_URL" ≠ "") :
    ((∀ s, request.arg "text" ≠ some (Value.str s)) →
      handleSendMessage w request = ⟨some (NewToolResultError "text is required"), none, []⟩) ∧
    (∀ s, request.arg "text" = some (Value.str s) →
      (handleSendMessage w request).result ≠ some (NewToolResultError "text is required")) := by
  refine ⟨handle_no_text w request hurl, ?_⟩
  intro s hs
  rw [handle_valid w request s hurl hs]
  rcases hsend : sendSlackMessage w (w.Getenv "SLACK_WEBHOOK_URL") (buildMessage request s)
    with ⟨_ | e, calls⟩
  · simp [NewToolResultText, NewToolResultError]
  · simp [NewToolResultError, failed_ne_required]

theorem C1_missing_text_witness :
    (answering 200 "ok").Getenv "SLACK_WEBHOOK_URL" ≠ "" ∧
    handleSendMessage (answering 200 "ok") ⟨some []⟩ =
      ⟨some (NewToolResultError "text is required"), none, []⟩ :=
  ⟨by decide,
    (C1_missing_text_is_error_without_call (answering 200 "ok") ⟨some []⟩ (by decide)).1
      (fun _ h => nomatch h)⟩

/-- C10: the endpoint check comes first. With `SLACK_WEBHOOK_URL` unset or empty
and `text` missing, the result is the configuration error and not the
validation error; the validation error is returned only when the endpoint is
non-empty. -/
theorem C10_endpoint_check_precedes_validation (w : World) (request : CallToolRequest) :
    (w.Getenv "SLACK_WEBHOOK_URL" = "" → (∀ s, request.arg "text" ≠ some (Value.str s)) →
      (handleSendMessage w request).result =
        some (NewToolResultError "SLACK_WEBHOOK_URL environment variable is required") ∧
      (handleSendMessage w request).result ≠ some (NewToolResultError "text is required")) ∧
    ((handleSendMessage w request).result = some (NewToolResultError "text is required") →
      w.Getenv "SLACK_WEBHOOK_URL" ≠ "") := by
  constructor
  · intro h _
    rw [handle_unconfigured w request h]
    exact ⟨rfl, by decide⟩
  · intro hres h
    rw [handle_unconfigured w request h] at hres
    revert hres
    decide

theorem C10_endpoint_check_witness :
    unconfigured.Getenv "SLACK_WEBHOOK_URL" = "" ∧
    (handleSendMessage unconfigured ⟨some []⟩).result =
      some (NewToolResultError "SLACK_WEBHOOK_URL environment variable is required") ∧
    (handleSendMessage unconfigured ⟨some []⟩).result ≠
      some (NewToolResultError "text is required") :=
  ⟨rfl, (C10_endpoint_check_precedes_validation unconfigured ⟨some []⟩).1 rfl
    (fun _ h => nomatch h)⟩

/-! ## The status of the response -/

/-- C3 (as stated, refuted): status 204 lies in the 200 range, yet
`sendSlackMessage` returns an error for it and the handler an error result. -/
theorem C3_status_204_is_failure :
    (200 : Int) ≤ 204 ∧ (204 : Int) ≤ 299 ∧
    sendSlackMessage (answering 204 "") "https://hooks.slack.com/services/T0/B0/X0"
      ⟨"hello", "", "", "", "", true⟩ =
      (some "Slack API returned status 204: ",
        [postRequest "https://hooks.slack.com/services/T0/B0/X0"
          "\x7b\"text\":\"hello\",\"mrkdwn\":true\x7d"]) ∧
    (handleSendMessage (answering 204 "") ⟨some [("text", Value.str "hello")]⟩).result =
      some (NewToolResultError "Failed to send message: Slack API returned status 204: ") := by
  decide

/-- C3 (amended): for every response the endpoint returns, `sendSlackMessage`
returns nil exactly when the status is 200 (`http.StatusOK`), and for a valid
call the handler returns the success result exactly in that case; every other
status, the rest of the 200 range included, is reported as a failure. -/
theorem C3_success_iff_status_ok (w : World) (url : String) (m : SlackMessage)
    (resp : HttpResponse) (hp : w.parseURL url = Except.ok ())
    (hd : w.roundTrip (postRequest url (encodeStruct m.fields)) = Except.ok resp) :
    ((sendSlackMessage w url m).1 = none ↔ resp.StatusCode = 200) ∧
    (∀ (request : CallToolRequest) (text : String), w.Getenv "SLACK_WEBHOOK_URL" = url →
      url ≠ "" → request.arg "text" = some (Value.str text) → buildMessage request text = m →
      (((handleSendMessage w request).result =
          some (NewToolResultText "Message sent successfully to Slack") ↔ resp.StatusCode = 200) ∧
       ((∃ r, (handleSendMessage w request).result = some r ∧ r.IsError = true) ↔
          resp.StatusCode ≠ 200))) := by
  have hs := send_response w url m resp hp hd
  refine ⟨?_, ?_⟩
  · rw [hs]
    by_cases h : resp.StatusCode = 200 <;> simp [h, StatusOK]
  · intro request text hurl hne htext hm
    subst hurl
    subst hm
    rw [handle_valid w request text hne htext, hs]
    by_cases h : resp.StatusCode = 200 <;>
      simp [h, StatusOK, NewToolResultText, NewToolResultError]

theorem C3_success_witness :
    ((sendSlackMessage (answering 200 "ok") "https://hooks.slack.com/services/T0/B0/X0"
      ⟨"hello", "", "", "", "", true⟩).1 = none ↔ (200 : Int) = 200) :=
  (C3_success_iff_status_ok (answering 200 "ok") "https://hooks.slack.com/services/T0/B0/X0"
    ⟨"hello", "", "", "", "", true⟩ ⟨200, "ok"⟩ rfl rfl).1

/-- C6: for every valid call in which the endpoint answers with a status `s`
other than 200 and a body `b`, the handler returns the error result whose
message is "Failed to send message: Slack API returned status <s>: <b>", with a
nil error; the message contains the decimal rendering of `s` and contains `b`. -/
theorem C6_remote_error_message (w : World) (request : CallToolRequest) (text : String)
    (resp : HttpResponse)
    (hurl : w.Getenv "SLACK_WEBHOOK_URL" ≠ "")
    (htext : request.arg "text" = some (Value.str text))
    (hp : w.parseURL (w.Getenv "SLACK_WEBHOOK_URL") = Except.ok ())
    (hd : w.roundTrip (postRequest (w.Getenv "SLACK_WEBHOOK_URL")
      (encodeStruct (buildMessage request text).fields)) = Except.ok resp)
    (hstatus : resp.StatusCode ≠ 200) :
    ∃ msg : String,
      (handleSendMessage w request).result = some (NewToolResultError msg) ∧
      (handleSendMessage w request).err = none ∧
      msg = "Failed to send message: Slack API returned status " ++ toString resp.StatusCode
        ++ ": " ++ resp.Body ∧
      (toString resp.StatusCode).data <:+: msg.data ∧
      resp.Body.data <:+: msg.data := by
  refine ⟨_, ?_, ?_, rfl, ?_, ?_⟩
  · rw [handle_valid w request text hurl htext, send_response w _ _ resp hp hd]
    simp [hstatus, StatusOK, String.append_assoc, failed_status_append]
  · rw [handle_valid w request text hurl htext, send_response w _ _ resp hp hd]
    simp [hstatus, StatusOK]
  · exact ⟨"Failed to send message: Slack API returned status ".data, (": " ++ resp.Body).data,
      by simp [String.data_append]⟩
  · exact ⟨("Failed to send message: Slack API returned status " ++ toString resp.StatusCode
      ++ ": ").data, [], by simp [String.data_append]⟩

theorem C6_remote_error_witness :
    toString (500 : Int) = "500" ∧
    ∃ msg : String,
      (handleSendMessage (answering 500 "bad request") ⟨some [("text", Value.str "x")]⟩).result =
        some (NewToolResultError msg) ∧
      (handleSendMessage (answering 500 "bad request") ⟨some [("text", Value.str "x")]⟩).err =
        none ∧
      msg = "Failed to send message: Slack API returned status " ++ toString (500 : Int)
        ++ ": " ++ "bad request" ∧
      (toString (500 : Int)).data <:+: msg.data ∧
      "bad request".data <:+: msg.data :=
  ⟨rfl, C6_remote_error_message (answering 500 "bad request") ⟨some [("text", Value.str "x")]⟩ "x"
    ⟨500, "bad request"⟩ (by decide) rfl rfl rfl (by decide)⟩

/-- C9: for every valid call whose HTTP call is reported successful
(`sendSlackMessage` returns nil), the handler returns, with a nil error, the
non-error text result "Message sent successfully to Slack", the same for every
text, optional parameter, endpoint URL and response body. -/
theorem C9_fixed_confirmation (w : World) (request : CallToolRequest) (text : String)
    (hurl : w.Getenv "SLACK_WEBHOOK_URL" ≠ "")
    (htext : request.arg "text" = some (Value.str text))
    (hsent : (sendSlackMessage w (w.Getenv "SLACK_WEBHOOK_URL")
      (buildMessage request text)).1 = none) :
    (handleSendMessage w request).result =
      some ⟨[⟨"text", "Message sent successfully to Slack"⟩], false⟩ ∧
    (handleSendMessage w request).err = none := by
  rw [handle_valid w request text hurl htext]
  rcases hs : sendSlackMessage w (w.Getenv "SLACK_WEBHOOK_URL") (buildMessage request text)
    with ⟨_ | e, calls⟩
  · simp [NewToolResultText]
  · rw [hs] at hsent
    simp at hsent

theorem C9_fixed_confirmation_witness :
    (handleSendMessage (answering 200 "ok")
      ⟨some [("text", Value.str "hi"), ("channel", Value.str "#ops")]⟩).result =
      some ⟨[⟨"text", "Message sent successfully to Slack"⟩], false⟩ ∧
    (handleSendMessage (answering 200 "ok")
      ⟨some [("text", Value.str "hi"), ("channel", Value.str "#ops")]⟩).err = none :=
  C9_fixed_confirmation (answering 200 "ok")
    ⟨some [("text", Value.str "hi"), ("channel", Value.str "#ops")]⟩ "hi" (by decide) rfl
    (by decide)

/-! ## The outbound request -/

/-- C8 (as stated, refuted): the endpoint variable is non-empty and `text` is
present, so validation passes, but the URL ends in a newline, `http.NewRequest`
fails, and no request is issued. -/
theorem C8_no_request_when_creation_fails :
    (strictParse "https://hooks.slack.com/services/T0/B0/X0\n").Getenv "SLACK_WEBHOOK_URL" ≠ "" ∧
    (CallToolRequest.mk (some [("text", Value.str "x")])).arg "text" = some (Value.str "x") ∧
    handleSendMessage (strictParse "https://hooks.slack.com/services/T0/B0/X0\n")
      ⟨some [("text", Value.str "x")]⟩ =
      ⟨some (NewToolResultError ("Failed to send message: failed to create request: "
        ++ "net/url: invalid control character in URL")), none, []⟩ := by
  decide

/-- C8 (amended): for every call that passes validation the handler issues at
most one outbound request and never a second one, whether the request succeeds
or fails. When `http.NewRequest` accepts the endpoint URL it issues exactly one:
a POST to that URL, with header `Content-Type: application/json` and the JSON
serialization of the constructed message as body. When request creation fails
it issues none. -/
theorem C8_single_post (w : World) (request : CallToolRequest) (text : String)
    (hurl : w.Getenv "SLACK_WEBHOOK_URL" ≠ "")
    (htext : request.arg "text" = some (Value.str text)) :
    (w.parseURL (w.Getenv "SLACK_WEBHOOK_URL") = Except.ok () →
      Marshal (buildMessage request text) =
        Except.ok (encodeStruct (buildMessage request text).fields) ∧
      (handleSendMessage w request).calls =
        [⟨"POST", w.Getenv "SLACK_WEBHOOK_URL", [("Content-Type", "application/json")],
          encodeStruct (buildMessage request text).fields⟩]) ∧
    (∀ e, w.parseURL (w.Getenv "SLACK_WEBHOOK_URL") = Except.error e →
      (handleSendMessage w request).calls = []) ∧
    (handleSendMessage w request).calls.length ≤ 1 := by
  rw [handle_valid w request text hurl htext]
  cases hp : w.parseURL (w.Getenv "SLACK_WEBHOOK_URL") with
  | error e =>
    rw [send_parse_error w _ e _ hp]
    simp
  | ok u =>
    cases u
    cases hd : w.roundTrip (postRequest (w.Getenv "SLACK_WEBHOOK_URL")
        (encodeStruct (buildMessage request text).fields)) with
    | error e =>
      rw [send_do_error w _ e _ hp hd]
      simp [postRequest, Marshal]
    | ok resp =>
      rw [send_response w _ _ resp hp hd]
      by_cases h : resp.StatusCode = StatusOK <;> simp [h, postRequest, Marshal]

theorem C8_single_post_witness :
    (handleSendMessage (answering 500 "bad request") ⟨some [("text", Value.str "x")]⟩).calls =
      [⟨"POST", "https://hooks.slack.com/services/T0/B0/X0",
        [("Content-Type", "application/json")], "\x7b\"text\":\"x\",\"mrkdwn\":true\x7d"⟩] :=
  ((C8_single_post (answering 500 "bad request") ⟨some [("text", Value.str "x")]⟩ "x"
    (by decide) rfl).1 rfl).2

/-! ## Every failure is an error result -/

/-- C7: for every request and every behaviour of the environment and of the
endpoint, the handler returns a non-nil result and a nil Go error. The result is
an error result exactly when one of the failures occurred (no endpoint, no text,
serialization error, request creation error, transport error, status other than
`http.StatusOK`), and an error result carries one non-empty text. -/
theorem C7_failures_are_error_results (w : World) (request : CallToolRequest) :
    ∃ r : CallToolResult,
      (handleSendMessage w request).result = some r ∧
      (handleSendMessage w request).err = none ∧
      (r.IsError = true ↔ failureOccurs w request) ∧
      (r.IsError = true → ∃ msg : String, msg ≠ "" ∧ r.Content = [⟨"text", msg⟩]) := by
  by_cases hurl : w.Getenv "SLACK_WEBHOOK_URL" = ""
  · rw [handle_unconfigured w request hurl]
    exact ⟨_, rfl, rfl, by simp [NewToolResultError, failureOccurs, hurl],
      fun _ => ⟨_, by decide, rfl⟩⟩
  by_cases htext : ∃ text, request.arg "text" = some (Value.str text)
  swap
  · have ht : ∀ s, request.arg "text" ≠ some (Value.str s) := fun s hs => htext ⟨s, hs⟩
    rw [handle_no_text w request hurl ht]
    exact ⟨_, rfl, rfl, by simp [NewToolResultError, failureOccurs, ht],
      fun _ => ⟨_, by decide, rfl⟩⟩
  obtain ⟨text, htext⟩ := htext
  have hne : ∀ e : String, "Failed to send message: " ++ e ≠ "" := by
    intro e h
    have := congrArg String.data h
    simp at this
  rw [handle_valid w request text hurl htext]
  cases hp : w.parseURL (w.Getenv "SLACK_WEBHOOK_URL") with
  | error e =>
    rw [send_parse_error w _ e _ hp]
    refine ⟨_, rfl, rfl, ?_, fun _ => ⟨_, hne _, rfl⟩⟩
    simp only [NewToolResultError, true_iff]
    exact Or.inr (Or.inr ⟨text, htext, Or.inr (Or.inl ⟨e, hp⟩)⟩)
  | ok u =>
    cases u
    cases hd : w.roundTrip (postRequest (w.Getenv "SLACK_WEBHOOK_URL")
        (encodeStruct (buildMessage request text).fields)) with
    | error e =>
      rw [send_do_error w _ e _ hp hd]
      refine ⟨_, rfl, rfl, ?_, fun _ => ⟨_, hne _, rfl⟩⟩
      simp only [NewToolResultError, true_iff]
      exact Or.inr (Or.inr ⟨text, htext, Or.inr (Or.inr (Or.inl ⟨e, hd⟩))⟩)
    | ok resp =>
      rw [send_response w _ _ resp hp hd]
      by_cases h : resp.StatusCode = StatusOK
      · rw [if_neg (not_not_intro h)]
        refine ⟨_, rfl, rfl, ?_, fun hr => by simp [NewToolResultText] at hr⟩
        simp only [NewToolResultText, Bool.false_eq_true, false_iff]
        rintro (h1 | h1 | ⟨t, ht, h1 | h1 | h1 | h1⟩)
        · exact hurl h1
        · exact h1 text htext
        · simp [Marshal] at h1
        · rw [htext] at ht
          simp at ht
          simp [hp] at h1
        · rw [htext] at ht
          simp only [Option.some.injEq, Value.str.injEq] at ht
          subst ht
          simp [hd] at h1
        · rw [htext] at ht
          simp only [Option.some.injEq, Value.str.injEq] at ht
          subst ht
          obtain ⟨resp1, hr1, hr2⟩ := h1
          rw [hd] at hr1
          simp only [Except.ok.injEq] at hr1
          subst hr1
          exact hr2 h
      · rw [if_pos h]
        refine ⟨_, rfl, rfl, ?_, fun _ => ⟨_, hne _, rfl⟩⟩
        simp only [NewToolResultError, true_iff]
        exact Or.inr (Or.inr ⟨text, htext, Or.inr (Or.inr (Or.inr ⟨resp, hd, h⟩))⟩)

/-! ## The serialized body -/

/-- C4: for every valid call, every request the handler sends carries the JSON
serialization of the constructed message (and one is sent when request creation
succeeds). Read as a JSON object, that body has exactly these members: `text`
with the supplied text, then each of `channel`, `username`, `icon_emoji`,
`icon_url` that was supplied as a non-empty string, with that string, then
`mrkdwn`. So each optional key is in the body with value `v` exactly when the
parameter was supplied as the non-empty string `v`, and is not in the body at
all (rather than there with an empty string) exactly when it was not. The body
is the text spelled out below, and a string literal determines its string. -/
theorem C4_optional_keys (w : World) (request : CallToolRequest) (text : String)
    (hurl : w.Getenv "SLACK_WEBHOOK_URL" ≠ "")
    (htext : request.arg "text" = some (Value.str text)) :
    (∀ r ∈ (handleSendMessage w request).calls,
      r.Body = encodeStruct (buildMessage request text).fields) ∧
    (w.parseURL (w.Getenv "SLACK_WEBHOOK_URL") = Except.ok () →
      (handleSendMessage w request).calls.map HttpRequest.Body =
        [encodeStruct (buildMessage request text).fields]) ∧
    (∃ members : List (String × FieldValue),
      readObject (encodeStruct (buildMessage request text).fields) = some members ∧
      members = ("text", FieldValue.string text) ::
        (optionalPair "channel" (request.GetString "channel" "")
          ++ optionalPair "username" (request.GetString "username" "")
          ++ optionalPair "icon_emoji" (request.GetString "icon_emoji" "")
          ++ optionalPair "icon_url" (request.GetString "icon_url" "")
          ++ (if request.GetBool "markdown" true = true then
                [("mrkdwn", FieldValue.bool true)] else [])) ∧
      members.lookup "text" = some (FieldValue.string text) ∧
      (∀ key ∈ ["channel", "username", "icon_emoji", "icon_url"],
        (∀ v, members.lookup key = some (FieldValue.string v) ↔
          (request.arg key = some (Value.str v) ∧ v ≠ "")) ∧
        (members.lookup key = none ↔
          ∀ v, request.arg key = some (Value.str v) → v = ""))) ∧
    encodeStruct (buildMessage request text).fields =
      "\x7b\"text\":" ++ appendString text
        ++ optionalMember "channel" (request.GetString "channel" "")
        ++ optionalMember "username" (request.GetString "username" "")
        ++ optionalMember "icon_emoji" (request.GetString "icon_emoji" "")
        ++ optionalMember "icon_url" (request.GetString "icon_url" "")
        ++ (if request.GetBool "markdown" true = true then ",\"mrkdwn\":true" else "")
        ++ "\x7d" ∧
    Function.Injective appendString := by
  refine ⟨?_, ?_, ?_, ?_, appendString_injective⟩
  · intro r hr
    rw [calls_body w request text hurl htext r hr]
    rfl
  · intro hp
    rw [calls_when_created w request text hurl htext hp]
    rfl
  · have hl := lookup_members text (request.GetString "channel" "")
      (request.GetString "username" "") (request.GetString "icon_emoji" "")
      (request.GetString "icon_url" "") (request.GetBool "markdown" true)
    simp only at hl
    obtain ⟨h0, h1, h2, h3, h4, _⟩ := hl
    refine ⟨_, ?_, rfl, h0, ?_⟩
    · rw [readObject_message, buildMessage_eq]
    · intro key hk
      simp only [List.mem_cons, List.mem_singleton, List.not_mem_nil, or_false] at hk
      rcases hk with rfl | rfl | rfl | rfl
      · rw [h1]
        exact ⟨supplied_some_iff request _, supplied_none_iff request _⟩
      · rw [h2]
        exact ⟨supplied_some_iff request _, supplied_none_iff request _⟩
      · rw [h3]
        exact ⟨supplied_some_iff request _, supplied_none_iff request _⟩
      · rw [h4]
        exact ⟨supplied_some_iff request _, supplied_none_iff request _⟩
  · rw [encodeStruct_fields, buildMessage_eq]

theorem C4_optional_keys_witness :
    ∃ members : List (String × FieldValue),
      readObject (encodeStruct (buildMessage ⟨some [("text", Value.str "hi"),
        ("channel", Value.str "#ops"), ("username", Value.str "")]⟩ "hi").fields) =
        some members ∧
      members.lookup "channel" = some (FieldValue.string "#ops") ∧
      members.lookup "username" = none := by
  obtain ⟨members, hr, _, _, hk⟩ := (C4_optional_keys (answering 200 "ok")
    ⟨some [("text", Value.str "hi"), ("channel", Value.str "#ops"),
      ("username", Value.str "")]⟩ "hi" (by decide) rfl).2.2.1
  refine ⟨members, hr, ((hk "channel" (by simp)).1 "#ops").2 ⟨rfl, by decide⟩,
    (hk "username" (by simp)).2.2 (fun v hv => ?_)⟩
  have : Value.str "" = Value.str v := Option.some.inj hv
  exact (Value.str.inj this).symm

/-- C5: for every valid call, every request the handler sends carries the JSON
serialization of the constructed message (and one is sent when request creation
succeeds). Read as a JSON object, that body has the member `"mrkdwn":true` when
`markdown` is absent or supplied as `true` (the body ends with it), and has no
`mrkdwn` key when `markdown` is supplied as `false`. The call with only text
"hello" serializes to exactly `{"text":"hello","mrkdwn":true}`, the call with
text "hi", channel "#ops" and markdown `false` to exactly
`{"text":"hi","channel":"#ops"}`. For any argument at all, the member is in the
body exactly when `GetBool("markdown", true)` reads it as true. -/
theorem C5_mrkdwn_unless_false (w : World) (request : CallToolRequest) (text : String)
    (hurl : w.Getenv "SLACK_WEBHOOK_URL" ≠ "")
    (htext : request.arg "text" = some (Value.str text)) :
    (∀ r ∈ (handleSendMessage w request).calls,
      r.Body = encodeStruct (buildMessage request text).fields) ∧
    (w.parseURL (w.Getenv "SLACK_WEBHOOK_URL") = Except.ok () →
      (handleSendMessage w request).calls.map HttpRequest.Body =
        [encodeStruct (buildMessage request text).fields]) ∧
    (∃ members : List (String × FieldValue),
      readObject (encodeStruct (buildMessage request text).fields) = some members ∧
      ((request.arg "markdown" = none ∨ request.arg "markdown" = some (Value.bool true)) →
        members.lookup "mrkdwn" = some (FieldValue.bool true) ∧
        ",\"mrkdwn\":true\x7d".data <:+
          (encodeStruct (buildMessage request text).fields).data) ∧
      (request.arg "markdown" = some (Value.bool false) →
        members.lookup "mrkdwn" = none) ∧
      members.lookup "mrkdwn" =
        (if request.GetBool "markdown" true = true then some (FieldValue.bool true)
          else none)) ∧
    (request.Arguments = some [("text", Value.str "hello")] →
      encodeStruct (buildMessage request text).fields =
        "\x7b\"text\":\"hello\",\"mrkdwn\":true\x7d") ∧
    (request.Arguments = some [("text", Value.str "hi"), ("channel", Value.str "#ops"),
        ("markdown", Value.bool false)] →
      encodeStruct (buildMessage request text).fields =
        "\x7b\"text\":\"hi\",\"channel\":\"#ops\"\x7d") := by
  refine ⟨?_, ?_, ?_, ?_, ?_⟩
  · intro r hr
    rw [calls_body w request text hurl htext r hr]
    rfl
  · intro hp
    rw [calls_when_created w request text hurl htext hp]
    rfl
  · have hl := lookup_members text (request.GetString "channel" "")
      (request.GetString "username" "") (request.GetString "icon_emoji" "")
      (request.GetString "icon_url" "") (request.GetBool "markdown" true)
    simp only at hl
    obtain ⟨_, _, _, _, _, h5⟩ := hl
    refine ⟨_, by rw [readObject_message, buildMessage_eq], ?_, ?_, h5⟩
    · intro hm
      have hb : request.GetBool "markdown" true = true := by
        rcases hm with h | h <;> simp [CallToolRequest.GetBool, h]
      have hM : (buildMessage request text).Markdown = true := by
        rw [buildMessage_eq]
        exact hb
      refine ⟨by rw [h5, hb]; rfl, ?_⟩
      rw [encodeStruct_fields, hM]
      refine ⟨("\x7b\"text\":" ++ appendString (buildMessage request text).Text
          ++ optionalMember "channel" (buildMessage request text).Channel
          ++ optionalMember "username" (buildMessage request text).Username
          ++ optionalMember "icon_emoji" (buildMessage request text).IconEmoji
          ++ optionalMember "icon_url" (buildMessage request text).IconURL).data, ?_⟩
      simp [String.data_append]
    · intro hm
      have hb : request.GetBool "markdown" true = false := by
        simp [CallToolRequest.GetBool, hm]
      rw [h5, hb]
      rfl
  · intro ha
    obtain ⟨args⟩ := request
    simp only at ha
    subst ha
    have ht : text = "hello" := by
      have : Value.str "hello" = Value.str text := Option.some.inj htext
      exact (Value.str.inj this).symm
    subst ht
    rfl
  · intro ha
    obtain ⟨args⟩ := request
    simp only at ha
    subst ha
    have ht : text = "hi" := by
      have : Value.str "hi" = Value.str text := Option.some.inj htext
      exact (Value.str.inj this).symm
    subst ht
    rfl

theorem C5_mrkdwn_witness :
    (handleSendMessage (answering 200 "ok")
        ⟨some [("text", Value.str "hi"), ("channel", Value.str "#ops"),
          ("markdown", Value.bool false)]⟩).calls.map HttpRequest.Body =
      ["\x7b\"text\":\"hi\",\"channel\":\"#ops\"\x7d"] ∧
    readObject "\x7b\"text\":\"hi\",\"channel\":\"#ops\"\x7d" =
      some [("text", FieldValue.string "hi"), ("channel", FieldValue.string "#ops")] ∧
    ∃ members : List (String × FieldValue),
      readObject (encodeStruct (buildMessage ⟨some [("text", Value.str "hi"),
        ("channel", Value.str "#ops"), ("markdown", Value.bool false)]⟩ "hi").fields) =
        some members ∧
      members.lookup "mrkdwn" = none := by
  have h := C5_mrkdwn_unless_false (answering 200 "ok")
    ⟨some [("text", Value.str "hi"), ("channel", Value.str "#ops"),
      ("markdown", Value.bool false)]⟩ "hi" (by decide) rfl
  obtain ⟨members, hr, _, hfalse, _⟩ := h.2.2.1
  refine ⟨?_, by decide, members, hr, hfalse rfl⟩
  rw [h.2.1 rfl, h.2.2.2.2 rfl]

end SlackWebhook
